import Mathlib

/-!
Verification of the NightPage backend request pipeline: a shallow embedding
of the server's rate limiter, HTML sanitizer, identity verification, and
journal-entry route handlers (from `supabase:functions::server/index.tsx`
and `components/AuthPage.tsx`), together with theorems settling the
specified properties.
-/

set_option maxRecDepth 10000

namespace NightPage

/-- A resolved user identity, as returned by the identity provider:
`{ id, email }` (the fields the handlers consult). -/
structure User where
  id : String
  email : String
deriving DecidableEq

/-- A stored journal entry object: the fields written by the save handler
(`{date, title?, content, wordCount, duration}`); `title : Option String`
models a possibly-`undefined` JS field. -/
structure JEntry where
  date : String
  title : Option String
  content : String
  wordCount : Nat
  duration : Nat
deriving DecidableEq

/-! ## Rate limiter (`checkRateLimit`, index.tsx lines 45-61)

`rateLimitStore` is a `Map<string, { count, resetTime }>`, modelled as a
function from keys to optional entries; `Date.now()` timestamps are `Nat`
milliseconds. -/

/-- One `rateLimitStore` value: `{ count: number; resetTime: number }`. -/
structure RLEntry where
  count : Nat
  resetTime : Nat
deriving DecidableEq

/-- The in-memory `rateLimitStore` map. -/
def RLStore : Type := String → Option RLEntry

/-- `checkRateLimit(key, maxAttempts, windowMs)` at time `now`:
if the key is absent or `now > entry.resetTime`, install
`{count := 1, resetTime := now + windowMs}` and allow; else if
`entry.count >= maxAttempts`, deny without mutating; else increment the
count and allow.  Returns (allowed?, updated store). -/
def checkRateLimit (store : RLStore) (key : String) (maxAttempts windowMs now : Nat) :
    Bool × RLStore :=
  match store key with
  | none =>
      (true, fun k => if k = key then some ⟨1, now + windowMs⟩ else store k)
  | some entry =>
      if entry.resetTime < now then
        (true, fun k => if k = key then some ⟨1, now + windowMs⟩ else store k)
      else if maxAttempts ≤ entry.count then
        (false, store)
      else
        (true, fun k => if k = key then some ⟨entry.count + 1, entry.resetTime⟩ else store k)

/-- Run `checkRateLimit` for the same key once per timestamp in `ts`,
threading the store; returns the list of allow/deny results and the final
store. -/
def runCalls (key : String) (maxAttempts windowMs : Nat) :
    RLStore → List Nat → List Bool × RLStore
  | st, [] => ([], st)
  | st, t :: ts =>
      let r := checkRateLimit st key maxAttempts windowMs t
      let rest := runCalls key maxAttempts windowMs r.2 ts
      (r.1 :: rest.1, rest.2)

/-! ## Content sanitizer (`sanitizeHtml`, index.tsx lines 102-117)

The source is a chain of `String.replace(regex, '')` calls.  Each regex is
embedded as an explicit matcher on `List Char` (`Option`-returning: on
success it yields the remainder after the leftmost-shortest match starting
at the head), and `stripAll` implements the global-replace-with-empty
semantics: scan left to right, deleting each match and continuing after
it.  Every matcher consumes at least one character on success, so fuel
equal to the input length is exact. -/

/-- The single-quote character (used in regex character classes below). -/
def squoteChar : Char := Char.ofNat 39

/-- ASCII/Latin-1 whitespace matched by the JS regex class `\s`
(the additional Unicode space separators cannot occur in any string
considered in this development). -/
def isJsSpace (c : Char) : Bool :=
  c = ' ' || c = '\t' || c = '\n' || c = '\r' || c = '\x0b' || c = '\x0c' || c = '\u00a0'

/-- An ASCII letter: what the class `[a-z]` matches under the `i` flag. -/
def isAsciiLetter (c : Char) : Bool :=
  ('a' ≤ c && c ≤ 'z') || ('A' ≤ c && c ≤ 'Z')

/-- Case-insensitive literal match at the head of `s`; returns the
remainder after the pattern on success. -/
def matchCI : List Char → List Char → Option (List Char)
  | [], s => some s
  | _ :: _, [] => none
  | p :: ps, c :: cs => if p.toLower = c.toLower then matchCI ps cs else none

/-- Lazy `[\s\S]*?>`: consume up to and including the first `>`. -/
def skipToGt : List Char → Option (List Char)
  | [] => none
  | c :: cs => if c = '>' then some cs else skipToGt cs

/-- Match the closing tag `<\s*\/\s*TAG\s*>` at the head of `s`. -/
def matchCloseTag (tag : List Char) (s : List Char) : Option (List Char) :=
  match s with
  | '<' :: r =>
      match r.dropWhile isJsSpace with
      | '/' :: r2 =>
          match matchCI tag (r2.dropWhile isJsSpace) with
          | some r3 =>
              match r3.dropWhile isJsSpace with
              | '>' :: r4 => some r4
              | _ => none
          | none => none
      | _ => none
  | _ => none

/-- Lazy `[\s\S]*?` before the closing tag: consume up to and including
the first occurrence of `<\s*\/\s*TAG\s*>`. -/
def findCloseTag (tag : List Char) : List Char → Option (List Char)
  | [] => none
  | c :: cs =>
      match matchCloseTag tag (c :: cs) with
      | some r => some r
      | none => findCloseTag tag cs

/-- The alternation `(script|iframe|object|embed)` of the tag-block regex. -/
def dangerTags : List (List Char) :=
  ["script".data, "iframe".data, "object".data, "embed".data]

/-- Try each alternative tag name at `r1` (the point after `<\s*`); on a
name match, run the lazy `>` search and the closing-tag search.  The four
names have pairwise distinct first letters, so at most one alternative can
match and failure of its continuation fails the whole alternation. -/
def tryTags : List (List Char) → List Char → Option (List Char)
  | [], _ => none
  | t :: ts, r1 =>
      match matchCI t r1 with
      | some r2 =>
          match skipToGt r2 with
          | some r3 => findCloseTag t r3
          | none => none
      | none => tryTags ts r1

/-- Matcher for `/<\s*(script|iframe|object|embed)[\s\S]*?>[\s\S]*?<\s*\/\s*\1\s*>/gi`. -/
def matchTagBlock (s : List Char) : Option (List Char) :=
  match s with
  | '<' :: r => tryTags dangerTags (r.dropWhile isJsSpace)
  | _ => none

/-- Matcher for `/on[a-z]+\s*=\s*Q[^Q]*Q/gi` where `Q` is the quote
character (`"` for the first event-handler pass, `'` for the second). -/
def matchOnAttr (q : Char) (s : List Char) : Option (List Char) :=
  match matchCI "on".data s with
  | none => none
  | some r =>
      if r.takeWhile isAsciiLetter = [] then none
      else
        match (r.dropWhile isAsciiLetter).dropWhile isJsSpace with
        | '=' :: r3 =>
            match r3.dropWhile isJsSpace with
            | c :: r4 =>
                if c = q then
                  match r4.dropWhile (fun d => d ≠ q) with
                  | d :: r6 => if d = q then some r6 else none
                  | [] => none
                else none
            | [] => none
        | _ => none

/-- Matcher for the `javascript:`-URI passes, `ATTR` one of `href`, `src`:
the value must be double-quoted, and the inner character class of the
regex excludes both the double- and the single-quote character. -/
def matchJsUri (attr : List Char) (s : List Char) : Option (List Char) :=
  match matchCI attr s with
  | none => none
  | some r =>
      match r.dropWhile isJsSpace with
      | '=' :: r2 =>
          match r2.dropWhile isJsSpace with
          | '"' :: r3 =>
              match matchCI "javascript:".data r3 with
              | none => none
              | some r4 =>
                  match r4.dropWhile (fun d => d ≠ '"' && d ≠ squoteChar) with
                  | '"' :: r6 => some r6
                  | _ => none
          | _ => none
      | _ => none

/-- Matcher for the leftover-open-tag passes `/<TAG[\s\S]*?>/gi`
(`TAG` one of `iframe`, `object`, `embed`; note: no `\s*` after `<`). -/
def matchOpenTag (tag : List Char) (s : List Char) : Option (List Char) :=
  match s with
  | '<' :: r =>
      match matchCI tag r with
      | some r2 => skipToGt r2
      | none => none
  | _ => none

/-- Global replace-with-empty: scan left to right; delete each match and
continue scanning after it; otherwise keep the character and advance by
one.  `fuel` bounds the recursion; callers pass the input length, which is
exact because every matcher consumes at least one character. -/
def stripAll (m : List Char → Option (List Char)) : Nat → List Char → List Char
  | 0, s => s
  | _ + 1, [] => []
  | fuel + 1, c :: cs =>
      match m (c :: cs) with
      | some rem => stripAll m fuel rem
      | none => c :: stripAll m fuel cs

/-- One `replace(regex, '')` pass over a character list. -/
def runPass (m : List Char → Option (List Char)) (s : List Char) : List Char :=
  stripAll m s.length s

/-- The server-side sanitizer: `if (!input) return input;` then the eight
regex-removal passes in source order (dangerous tag blocks; double- then
single-quoted event-handler attributes; double-quoted `href`/`src`
`javascript:` URIs; leftover `iframe`/`object`/`embed` open tags). -/
def sanitizeHtml (input : String) : String :=
  if input.isEmpty then input
  else
    let p1 := runPass matchTagBlock input.data
    let p2 := runPass (matchOnAttr '"') p1
    let p3 := runPass (matchOnAttr squoteChar) p2
    let p4 := runPass (matchJsUri "href".data) p3
    let p5 := runPass (matchJsUri "src".data) p4
    let p6 := runPass (matchOpenTag "iframe".data) p5
    let p7 := runPass (matchOpenTag "object".data) p6
    let p8 := runPass (matchOpenTag "embed".data) p7
    String.mk p8

/-- The single-quote character as a one-character string. -/
def squoteStr : String := String.mk [squoteChar]

/-! ## Identity verification (`verifyUser`, index.tsx lines 120-151)

The external provider call `supabaseAdmin.auth.getUser(token)` is a
parameter `getUser : String → Option User`; `none` covers both the
provider-error and the no-user outcome (the code throws the same message
for both). -/

/-- JS `str.split(' ')` on a character list: split at every single space,
keeping empty fields. -/
def splitSpace : List Char → List (List Char)
  | [] => [[]]
  | c :: rest =>
      let r := splitSpace rest
      if c = ' ' then [] :: r
      else
        match r with
        | [] => [[c]]
        | h :: t => (c :: h) :: t

/-- JS `authHeader.split(' ')` as a list of strings. -/
def jsSplitSpace (s : String) : List String := (splitSpace s.data).map String.mk

/-- `verifyUser(authHeader)`: throws (here: `Except.error`) when the
header is absent, when `split(' ')[1]` is `undefined` or the empty string,
or when the provider reports no valid user; otherwise returns the user. -/
def verifyUser (authHeader : Option String) (getUser : String → Option User) :
    Except String User :=
  match authHeader with
  | none => .error "No authorization header"
  | some h =>
      match (jsSplitSpace h)[1]? with
      | none => .error "No token provided"
      | some token =>
          if token = "" then .error "No token provided"
          else
            match getUser token with
            | none => .error "Invalid or expired token"
            | some u => .ok u

/-! ## Key-value store (`kv_store.tsx`, imported by index.tsx but not part
of the sources at hand) -/

/-- Modelled from the spec: the external key-value store behind
`kv_store.tsx` (a file the repository imports but whose source is not
available here), as an association list from storage keys to entries;
the first binding for a key is its current value. -/
def KVStore : Type := List (String × JEntry)

/-- Modelled from the spec: `kv.get(key)` of the missing `kv_store.tsx` —
the value at `key`, if any. -/
def kvGet (key : String) (st : KVStore) : Option JEntry :=
  (st.find? (fun p => p.1 == key)).map (·.2)

/-- Modelled from the spec: `kv.set(key, value)` of the missing
`kv_store.tsx` — full overwrite of the value at `key` (last write wins). -/
def kvSet (key : String) (v : JEntry) (st : KVStore) : KVStore :=
  (key, v) :: st.filter (fun p => !(p.1 == key))

/-- Modelled from the spec: `kv.del(key)` of the missing `kv_store.tsx` —
unconditional delete, no error when the key is absent. -/
def kvDel (key : String) (st : KVStore) : KVStore :=
  st.filter (fun p => !(p.1 == key))

/-- `p` is a prefix of `s` (character lists). -/
def listStartsWith : List Char → List Char → Bool
  | [], _ => true
  | _ :: _, [] => false
  | a :: as, b :: bs => a == b && listStartsWith as bs

/-- `p` is a prefix of `s` (strings). -/
def strStartsWith (p s : String) : Bool := listStartsWith p.data s.data

/-- `pat` occurs as a contiguous substring of `s` (character lists). -/
def listContainsSub (pat : List Char) : List Char → Bool
  | [] => listStartsWith pat []
  | c :: cs => listStartsWith pat (c :: cs) || listContainsSub pat cs

/-- Modelled from the spec: `kv.getByPrefix(prefix)` of the missing
`kv_store.tsx` — the values of all entries whose key starts with the given
string. -/
def kvPrefixScan (p : String) (st : KVStore) : List JEntry :=
  (st.filter (fun q => strStartsWith p q.1)).map (·.2)

/-- The storage key `` `journal:${user.id}:${date}` ``. -/
def journalKey (uid date : String) : String :=
  "journal:" ++ uid ++ ":" ++ date

/-- The listing key scope `` `journal:${user.id}:` ``. -/
def ownerScope (uid : String) : String :=
  "journal:" ++ uid ++ ":"

/-! ## Route handlers (index.tsx lines 223-365)

Each handler is a function of the request pieces it reads and the current
store; the result carries the HTTP status, the store after the request,
and (where the route returns data) the success payload.  A `verifyUser`
failure is caught by the handler's generic `catch`, which responds with
status 500 and leaves the store untouched. -/

/-- `POST /journal/save`: body is `{entry}` (`none` when the `entry` field
is missing); 400 when the entry or its `date`/`content` is missing or
empty (JS falsiness); otherwise sanitize the content and overwrite the
derived key. -/
def postJournalSave (auth : Option String) (getUser : String → Option User)
    (body : Option JEntry) (st : KVStore) : Nat × KVStore :=
  match verifyUser auth getUser with
  | .error _ => (500, st)
  | .ok user =>
      match body with
      | none => (400, st)
      | some e =>
          if e.date = "" || e.content = "" then (400, st)
          else
            (200, kvSet (journalKey user.id e.date)
              { e with content := sanitizeHtml e.content } st)

/-- `PUT /journal/entry/:date`: body is `{title}` (`none` when absent,
which JS destructuring leaves `undefined`); 404 when no entry exists at
the derived key; otherwise spread the existing entry, overwrite `title`
with the body value, re-sanitize non-empty content, write back, and
return the updated entry. -/
def putJournalEntry (auth : Option String) (getUser : String → Option User)
    (date : String) (bodyTitle : Option String) (st : KVStore) :
    Nat × KVStore × Option JEntry :=
  match verifyUser auth getUser with
  | .error _ => (500, st, none)
  | .ok user =>
      let key := journalKey user.id date
      match kvGet key st with
      | none => (404, st, none)
      | some ex =>
          let upd0 := { ex with title := bodyTitle }
          let upd :=
            if upd0.content = "" then upd0
            else { upd0 with content := sanitizeHtml upd0.content }
          (200, kvSet key upd st, some upd)

/-- `GET /journal/entries`: prefix-scan the caller's own scope and
sanitize every returned entry's content. -/
def getJournalEntries (auth : Option String) (getUser : String → Option User)
    (st : KVStore) : Nat × Option (List JEntry) :=
  match verifyUser auth getUser with
  | .error _ => (500, none)
  | .ok user =>
      (200, some ((kvPrefixScan (ownerScope user.id) st).map
        (fun e => { e with content := sanitizeHtml e.content })))

/-- `DELETE /journal/entry/:date`: unconditional delete of the derived
key, always a success response. -/
def deleteJournalEntry (auth : Option String) (getUser : String → Option User)
    (date : String) (st : KVStore) : Nat × KVStore :=
  match verifyUser auth getUser with
  | .error _ => (500, st)
  | .ok user => (200, kvDel (journalKey user.id date) st)

/-- `GET /admin/users`: the `MASTER_ADMIN_EMAIL` environment variable is
`masterAdminEmail` (`none` when unset); the 403 branch fires only when the
variable is set to a non-empty string (JS truthiness) and the caller's
email differs.  `allUsers` stands for the provider's `listUsers` result. -/
def getAdminUsers (auth : Option String) (getUser : String → Option User)
    (masterAdminEmail : Option String) (allUsers : List User) :
    Nat × Option (List User) :=
  match verifyUser auth getUser with
  | .error _ => (500, none)
  | .ok user =>
      match masterAdminEmail with
      | some m =>
          if m ≠ "" ∧ user.email ≠ m then (403, none) else (200, some allUsers)
      | none => (200, some allUsers)

/-- `GET /admin/user/:userId/entries`: after authentication (the
admin-email restriction in the source is commented out), prefix-scan the
scope of the client-supplied `userId` path parameter and return the
entries as stored (no sanitization). -/
def getAdminUserEntries (auth : Option String) (getUser : String → Option User)
    (userIdParam : String) (st : KVStore) : Nat × Option (List JEntry) :=
  match verifyUser auth getUser with
  | .error _ => (500, none)
  | .ok _ => (200, some (kvPrefixScan (ownerScope userIdParam) st))

/-! ## Client-side password policy (`AuthPage.tsx` lines 10-25, 97-110) -/

/-- The character class of the special-character regex in
`validatePassword`. -/
def specialChars : List Char :=
  ['!', '@', '#', '$', '%', '^', '&', '*', '(', ')', '_', '+', '-', '=',
   '[', ']', Char.ofNat 123, Char.ofNat 125, ';', Char.ofNat 39, ':', '"',
   Char.ofNat 92, '|', ',', '.', '<', '>', '/', '?']

/-- `validatePassword(pwd)`: the five checks (length ≥ 12; an uppercase
letter; a lowercase letter; a digit; a special character), in object
order. -/
def validatePassword (pwd : String) : List Bool :=
  [ decide (12 ≤ pwd.length),
    pwd.data.any (fun c => 'A' ≤ c && c ≤ 'Z'),
    pwd.data.any (fun c => 'a' ≤ c && c ≤ 'z'),
    pwd.data.any (fun c => '0' ≤ c && c ≤ '9'),
    pwd.data.any (fun c => specialChars.contains c) ]

/-- `isPasswordStrong(pwd)`: `Object.values(checks).every(v => v === true)`. -/
def isPasswordStrong (pwd : String) : Bool :=
  (validatePassword pwd).all id

/-- Outcome of the signup branch of `handleSubmit`: either a client-side
rejection (thrown before any `fetch`) or the network signup call with its
payload. -/
inductive SignupAction where
  | clientReject (msg : String)
  | networkSignup (email pwd name : String)
deriving DecidableEq

/-- The signup branch of `handleSubmit`: password strength is checked
before the `fetch` to the signup endpoint is reached. -/
def handleSignupSubmit (email pwd name : String) : SignupAction :=
  if isPasswordStrong pwd then .networkSignup email pwd name
  else .clientReject "Password does not meet security requirements"

/-! ## Helper lemmas -/

theorem listStartsWith_iff (u : List Char) : ∀ v,
    listStartsWith u v = true ↔ ∃ w, v = u ++ w := by
  induction u with
  | nil => intro v; simp [listStartsWith]
  | cons a as ih =>
      intro v
      cases v with
      | nil => simp [listStartsWith]
      | cons b bs =>
          simp only [listStartsWith, Bool.and_eq_true, beq_iff_eq, ih,
            List.cons_append, List.cons.injEq]
          constructor
          · rintro ⟨hab, w, hw⟩; exact ⟨w, hab.symm, hw⟩
          · rintro ⟨w, hba, hw⟩; exact ⟨hba.symm, w, hw⟩

theorem colonFree_cancel (a : List Char) : ∀ (b u v : List Char),
    ':' ∉ a → ':' ∉ b → a ++ ':' :: u = b ++ ':' :: v → a = b ∧ u = v := by
  induction a with
  | nil =>
      intro b u v _ hb h
      cases b with
      | nil => simpa using h
      | cons y ys =>
          simp only [List.nil_append, List.cons_append, List.cons.injEq] at h
          exact absurd (h.1 ▸ List.mem_cons_self y ys) (h.1 ▸ hb)
  | cons x xs ih =>
      intro b u v ha hb h
      cases b with
      | nil =>
          simp only [List.nil_append, List.cons_append, List.cons.injEq] at h
          exact absurd (h.1 ▸ List.mem_cons_self x xs) (fun hx => ha (h.1 ▸ hx))
      | cons y ys =>
          simp only [List.cons_append, List.cons.injEq] at h
          have hxs : ':' ∉ xs := fun hm => ha (List.mem_cons_of_mem x hm)
          have hys : ':' ∉ ys := fun hm => hb (List.mem_cons_of_mem y hm)
          obtain ⟨h1, h2⟩ := ih ys u v hxs hys h.2
          exact ⟨by rw [h.1, h1], h2⟩

theorem journalKey_data (uid date : String) :
    (journalKey uid date).data = "journal:".data ++ (uid.data ++ ':' :: date.data) := by
  simp [journalKey, String.data_append]

theorem ownerScope_data (uid : String) :
    (ownerScope uid).data = "journal:".data ++ (uid.data ++ [':']) := by
  simp [ownerScope, String.data_append]

/-- For colon-free owner ids, keys of distinct owners are distinct,
whatever the dates. -/
theorem journalKey_ne_of_owner_ne (A B d d' : String)
    (hA : ':' ∉ A.data) (hB : ':' ∉ B.data) (hne : A ≠ B) :
    journalKey A d ≠ journalKey B d' := by
  intro h
  have hdata := congrArg String.data h
  rw [journalKey_data, journalKey_data] at hdata
  have h2 := List.append_cancel_left hdata
  have h3 := colonFree_cancel A.data B.data d.data d'.data hA hB h2
  exact hne (String.ext h3.1)

/-- For colon-free owner ids, another owner's key never falls inside a
caller's listing scope. -/
theorem scope_not_startsWith (A B d : String)
    (hA : ':' ∉ A.data) (hB : ':' ∉ B.data) (hne : A ≠ B) :
    strStartsWith (ownerScope B) (journalKey A d) = false := by
  rw [← Bool.not_eq_true]
  intro h
  rw [strStartsWith, listStartsWith_iff] at h
  obtain ⟨w, hw⟩ := h
  rw [journalKey_data, ownerScope_data, List.append_assoc] at hw
  have h2 := List.append_cancel_left hw
  have h3 : A.data ++ ':' :: d.data = B.data ++ ':' :: w := by
    simpa using h2
  exact hne (String.ext (colonFree_cancel A.data B.data d.data w hA hB h3).1)

/-- An owner's own keys always fall inside the owner's listing scope. -/
theorem scope_startsWith_self (B d : String) :
    strStartsWith (ownerScope B) (journalKey B d) = true := by
  rw [strStartsWith, listStartsWith_iff]
  exact ⟨d.data, by rw [journalKey_data, ownerScope_data]; simp⟩

theorem find?_filter_ne (k1 k2 : String) (hne : k1 ≠ k2) (l : KVStore) :
    (l.filter (fun p => !(p.1 == k2))).find? (fun p => p.1 == k1) =
      l.find? (fun p => p.1 == k1) := by
  induction l with
  | nil => rfl
  | cons p ps ih =>
      by_cases h1 : p.1 = k1
      · have hpk2 : (p.1 == k2) = false := by
          simp only [beq_eq_false_iff_ne]; rw [h1]; exact hne
        have hpk1 : (p.1 == k1) = true := by simp [h1]
        simp [List.filter_cons, hpk2, List.find?_cons, hpk1]
      · have hpk1 : (p.1 == k1) = false := by
          simp only [beq_eq_false_iff_ne]; exact h1
        by_cases h2 : p.1 = k2
        · have hpk2 : (p.1 == k2) = true := by simp [h2]
          simp [List.filter_cons, hpk2, List.find?_cons, hpk1, ih]
        · have hpk2 : (p.1 == k2) = false := by
            simp only [beq_eq_false_iff_ne]; exact h2
          simp [List.filter_cons, hpk2, List.find?_cons, hpk1, ih]

theorem kvGet_kvSet_self (k : String) (v : JEntry) (st : KVStore) :
    kvGet k (kvSet k v st) = some v := by
  simp [kvGet, kvSet, List.find?_cons]

theorem kvGet_kvSet_ne (k1 k2 : String) (v : JEntry) (st : KVStore)
    (hne : k1 ≠ k2) : kvGet k1 (kvSet k2 v st) = kvGet k1 st := by
  simp only [kvGet, kvSet, List.find?_cons,
    show (k2 == k1) = false by simp; exact fun h => hne h.symm,
    find?_filter_ne k1 k2 hne st]

theorem kvGet_kvDel_ne (k1 k2 : String) (st : KVStore) (hne : k1 ≠ k2) :
    kvGet k1 (kvDel k2 st) = kvGet k1 st := by
  simp only [kvGet, kvDel, find?_filter_ne k1 k2 hne st]

theorem kvDel_of_get_none (k : String) (st : KVStore)
    (h : kvGet k st = none) : kvDel k st = st := by
  rw [kvGet, Option.map_eq_none', List.find?_eq_none] at h
  rw [kvDel, List.filter_eq_self]
  intro p hp
  simpa using h p hp

theorem filter_filter_of_false (P : String → Bool) (k : String)
    (hk : P k = false) (l : KVStore) :
    (l.filter (fun p => !(p.1 == k))).filter (fun q => P q.1) =
      l.filter (fun q => P q.1) := by
  induction l with
  | nil => rfl
  | cons p ps ih =>
      by_cases h2 : p.1 = k
      · simp [List.filter_cons, h2, hk, ih]
      · simp [List.filter_cons, show (p.1 == k) = false by simp [h2], ih]

theorem kvPrefixScan_kvSet_not_pref (p k : String) (v : JEntry) (st : KVStore)
    (h : strStartsWith p k = false) :
    kvPrefixScan p (kvSet k v st) = kvPrefixScan p st := by
  simp [kvPrefixScan, kvSet, List.filter_cons, h, filter_filter_of_false (strStartsWith p) k h st]

theorem kvPrefixScan_kvDel (p k : String) (st : KVStore)
    (h : strStartsWith p k = false) :
    kvPrefixScan p (kvDel k st) = kvPrefixScan p st := by
  simp [kvPrefixScan, kvDel, filter_filter_of_false (strStartsWith p) k h st]

/-- Filling the window: starting from a counter `⟨c, r⟩`, a batch of calls
at times not past `r`, with room left (`c + |ts| ≤ max`), is fully allowed
and increments the counter by the batch size. -/
theorem runCalls_fill (key : String) (maxA w r : Nat) : ∀ (ts : List Nat)
    (st : RLStore) (c : Nat), st key = some ⟨c, r⟩ →
    c + ts.length ≤ maxA → (∀ t ∈ ts, t ≤ r) →
    (runCalls key maxA w st ts).1 = List.replicate ts.length true ∧
      (runCalls key maxA w st ts).2 key = some ⟨c + ts.length, r⟩ := by
  intro ts
  induction ts with
  | nil => intro st c hst _ _; simpa [runCalls] using hst
  | cons t ts ih =>
      intro st c hst hroom htimes
      have hroom' : c + (ts.length + 1) ≤ maxA := by simpa using hroom
      have hle : t ≤ r := htimes t (List.mem_cons_self t ts)
      have hcnt : ¬ maxA ≤ c := by omega
      have hstep : checkRateLimit st key maxA w t =
          (true, fun k => if k = key then some ⟨c + 1, r⟩ else st k) := by
        simp only [checkRateLimit, hst]
        rw [if_neg (Nat.not_lt.mpr hle), if_neg hcnt]
      have ihr := ih (fun k => if k = key then some ⟨c + 1, r⟩ else st k) (c + 1)
        (by simp) (by omega) (fun t' ht' => htimes t' (List.mem_cons_of_mem t ht'))
      rw [runCalls]
      simp only [hstep]
      refine ⟨?_, ?_⟩
      · simp [List.replicate_succ, ihr.1]
      · rw [ihr.2]
        have hc : c + 1 + ts.length = c + (t :: ts).length := by
          simp only [List.length_cons]; omega
        rw [hc]

theorem kvPrefixScan_kvSet_pref (p k : String) (v : JEntry) (st : KVStore)
    (h : strStartsWith p k = true) :
    kvPrefixScan p (kvSet k v st) =
      v :: kvPrefixScan p (st.filter (fun q => !(q.1 == k))) := by
  simp [kvPrefixScan, kvSet, List.filter_cons, h]

theorem sanitizeHtml_empty : sanitizeHtml "" = "" := rfl

/-! ## Claim theorems -/

/-- C3 counterexample: a request to `POST /journal/save` with no
`Authorization` header is answered with status 500, not the claimed
401. -/
theorem unauthenticated_save_not_401 :
    (postJournalSave none (fun _ => none)
        (some ⟨"2024-01-01", none, "hello", 1, 15⟩) []).1 = 500 ∧
    (postJournalSave none (fun _ => none)
        (some ⟨"2024-01-01", none, "hello", 1, 15⟩) []).1 ≠ 401 :=
  ⟨rfl, by decide⟩

/-- C3 amended: on every authenticated journal or admin route, a request
on which `verifyUser` fails (header absent, malformed, or token rejected
by the provider) makes the handler body run with no effect — the store is
unchanged and no payload is produced — but the generic `catch` answers
with status 500, not 401. -/
theorem unauthenticated_all_handlers_500 (auth : Option String)
    (getUser : String → Option User) (msg : String)
    (hv : verifyUser auth getUser = .error msg)
    (body : Option JEntry) (date : String) (bodyTitle masterAdminEmail : Option String)
    (allUsers : List User) (uid : String) (st : KVStore) :
    postJournalSave auth getUser body st = (500, st) ∧
    putJournalEntry auth getUser date bodyTitle st = (500, st, none) ∧
    getJournalEntries auth getUser st = (500, none) ∧
    deleteJournalEntry auth getUser date st = (500, st) ∧
    getAdminUsers auth getUser masterAdminEmail allUsers = (500, none) ∧
    getAdminUserEntries auth getUser uid st = (500, none) := by
  refine ⟨?_, ?_, ?_, ?_, ?_, ?_⟩ <;>
    simp only [postJournalSave, putJournalEntry, getJournalEntries,
      deleteJournalEntry, getAdminUsers, getAdminUserEntries, hv]

/-- Witness for the amended C3: a request with a header carrying no token
(`"Bearer"` alone) is rejected by every handler with status 500 and no
effect. -/
theorem unauthenticated_all_handlers_500_witness :
    (verifyUser (some "Bearer") (fun _ => some ⟨"a", "a@x"⟩) =
      .error "No token provided") ∧
    (postJournalSave (some "Bearer") (fun _ => some ⟨"a", "a@x"⟩)
        (some ⟨"d", none, "c", 1, 1⟩) [] = (500, []) ∧
      putJournalEntry (some "Bearer") (fun _ => some ⟨"a", "a@x"⟩)
        "d" none [] = (500, [], none) ∧
      getJournalEntries (some "Bearer") (fun _ => some ⟨"a", "a@x"⟩) [] = (500, none) ∧
      deleteJournalEntry (some "Bearer") (fun _ => some ⟨"a", "a@x"⟩) "d" [] = (500, []) ∧
      getAdminUsers (some "Bearer") (fun _ => some ⟨"a", "a@x"⟩)
        (some "admin@x") [] = (500, none) ∧
      getAdminUserEntries (some "Bearer") (fun _ => some ⟨"a", "a@x"⟩) "z" [] =
        (500, none)) :=
  ⟨rfl, unauthenticated_all_handlers_500 (some "Bearer") (fun _ => some ⟨"a", "a@x"⟩)
    "No token provided" rfl (some ⟨"d", none, "c", 1, 1⟩) "d" none (some "admin@x") [] "z" []⟩

/-- C7 counterexample: with the `MASTER_ADMIN_EMAIL` environment variable
unset, an authenticated non-admin caller receives the full user list with
status 200 — not the claimed 403 — so `GET /admin/users` is not gated by
an email allowlist on every request. -/
theorem admin_users_ungated_when_env_unset :
    getAdminUsers (some "Bearer btok")
        (fun t => if t = "btok" then some ⟨"bob", "bob@x"⟩ else none)
        none [⟨"alice", "a@x"⟩, ⟨"bob", "bob@x"⟩] =
      (200, some [⟨"alice", "a@x"⟩, ⟨"bob", "bob@x"⟩]) ∧
    (200 : Nat) ≠ 403 :=
  ⟨rfl, by decide⟩

/-- C7 amended: the allowlist gate exists only when the
`MASTER_ADMIN_EMAIL` environment variable is set to a non-empty string;
in that case an authenticated caller with a different email receives 403
and no user list.  When the variable is unset, any authenticated caller
receives the list. -/
theorem admin_users_allowlist_when_configured (auth : Option String)
    (getUser : String → Option User) (u : User) (m : String)
    (allUsers : List User) (hv : verifyUser auth getUser = .ok u)
    (hm : m ≠ "") (hne : u.email ≠ m) :
    getAdminUsers auth getUser (some m) allUsers = (403, none) ∧
    (∀ allUsers', getAdminUsers auth getUser none allUsers' = (200, some allUsers')) := by
  constructor
  · simp only [getAdminUsers, hv]
    rw [if_pos ⟨hm, hne⟩]
  · intro allUsers'
    simp only [getAdminUsers, hv]

/-- Witness for the amended C7: with the allowlist set to `admin@x`, the
authenticated caller `bob@x` is denied with 403 and no list; with the
variable unset the same caller receives the list. -/
theorem admin_users_allowlist_when_configured_witness :
    (verifyUser (some "Bearer btok")
        (fun t => if t = "btok" then some ⟨"bob", "bob@x"⟩ else none) =
        .ok ⟨"bob", "bob@x"⟩ ∧
      ("admin@x" : String) ≠ "" ∧ ("bob@x" : String) ≠ "admin@x") ∧
    (getAdminUsers (some "Bearer btok")
        (fun t => if t = "btok" then some ⟨"bob", "bob@x"⟩ else none)
        (some "admin@x") [⟨"alice", "a@x"⟩] = (403, none) ∧
      (∀ allUsers', getAdminUsers (some "Bearer btok")
        (fun t => if t = "btok" then some ⟨"bob", "bob@x"⟩ else none)
        none allUsers' = (200, some allUsers'))) :=
  ⟨⟨rfl, by decide, by decide⟩,
    admin_users_allowlist_when_configured _ _ ⟨"bob", "bob@x"⟩ _ [⟨"alice", "a@x"⟩]
      rfl (by decide) (by decide)⟩

/-- C4: rate-limiter contract.  With limit `N` and window `W`, starting
with no counter for `key`: the first call (at `t0`) and `N - 1` further
calls at times within the window (`≤ t0 + W`) are all allowed; an
`(N+1)`th call still inside the window is denied and returns the store
unchanged (no increment); and a call at a time strictly past the stored
reset time is allowed, with the counter replaced by `count = 1` and
`windowResetAt = now + W`.  The check is a total function returning only
allow or deny. -/
theorem checkRateLimit_contract (key : String) (N W t0 : Nat) (st : RLStore)
    (ts : List Nat) (hN : 0 < N) (hst : st key = none)
    (hlen : ts.length = N - 1) (hts : ∀ t ∈ ts, t ≤ t0 + W)
    (tdeny tafter : Nat) (hdeny : tdeny ≤ t0 + W) (hafter : t0 + W < tafter) :
    (runCalls key N W st (t0 :: ts)).1 = List.replicate N true ∧
    (checkRateLimit (runCalls key N W st (t0 :: ts)).2 key N W tdeny).1 = false ∧
    (checkRateLimit (runCalls key N W st (t0 :: ts)).2 key N W tdeny).2 =
      (runCalls key N W st (t0 :: ts)).2 ∧
    (checkRateLimit (runCalls key N W st (t0 :: ts)).2 key N W tafter).1 = true ∧
    (checkRateLimit (runCalls key N W st (t0 :: ts)).2 key N W tafter).2 key =
      some ⟨1, tafter + W⟩ := by
  have hstep : checkRateLimit st key N W t0 =
      (true, fun k => if k = key then some ⟨1, t0 + W⟩ else st k) := by
    simp only [checkRateLimit, hst]
  have hfill := runCalls_fill key N W (t0 + W) ts
    (fun k => if k = key then some ⟨1, t0 + W⟩ else st k) 1 (by simp)
    (by omega) hts
  have hrun1 : (runCalls key N W st (t0 :: ts)).1 =
      true :: (runCalls key N W (fun k => if k = key then some ⟨1, t0 + W⟩ else st k) ts).1 := by
    simp only [runCalls, hstep]
  have hrun2 : (runCalls key N W st (t0 :: ts)).2 =
      (runCalls key N W (fun k => if k = key then some ⟨1, t0 + W⟩ else st k) ts).2 := by
    simp only [runCalls, hstep]
  have hone : 1 + ts.length = N := by omega
  have hst2 : (runCalls key N W st (t0 :: ts)).2 key = some ⟨N, t0 + W⟩ := by
    rw [hrun2, hfill.2, hone]
  refine ⟨?_, ?_, ?_, ?_, ?_⟩
  · rw [hrun1, hfill.1, hlen]
    cases N with
    | zero => omega
    | succ n => simp [List.replicate_succ]
  · simp only [checkRateLimit, hst2]
    rw [if_neg (Nat.not_lt.mpr hdeny), if_pos (Nat.le_refl N)]
  · simp only [checkRateLimit, hst2]
    rw [if_neg (Nat.not_lt.mpr hdeny), if_pos (Nat.le_refl N)]
  · simp only [checkRateLimit, hst2]
    rw [if_pos hafter]
  · simp only [checkRateLimit, hst2]
    rw [if_pos hafter]
    simp

/-- Witness for C4: `N = 2`, `W = 10`, calls at times 0 and 5 allowed, a
third call at time 7 denied without increment, and a call at time 11
allowed with a fresh counter. -/
theorem checkRateLimit_contract_witness :
    ((0 : Nat) < 2 ∧
      (fun _ : String => (none : Option RLEntry)) "k" = none ∧
      ([5] : List Nat).length = 2 - 1 ∧
      (∀ t ∈ ([5] : List Nat), t ≤ 0 + 10) ∧
      (7 : Nat) ≤ 0 + 10 ∧ (0 : Nat) + 10 < 11) ∧
    ((runCalls "k" 2 10 (fun _ => none) (0 :: [5])).1 = List.replicate 2 true ∧
      (checkRateLimit (runCalls "k" 2 10 (fun _ => none) (0 :: [5])).2 "k" 2 10 7).1 = false ∧
      (checkRateLimit (runCalls "k" 2 10 (fun _ => none) (0 :: [5])).2 "k" 2 10 7).2 =
        (runCalls "k" 2 10 (fun _ => none) (0 :: [5])).2 ∧
      (checkRateLimit (runCalls "k" 2 10 (fun _ => none) (0 :: [5])).2 "k" 2 10 11).1 = true ∧
      (checkRateLimit (runCalls "k" 2 10 (fun _ => none) (0 :: [5])).2 "k" 2 10 11).2 "k" =
        some ⟨1, 11 + 10⟩) :=
  ⟨⟨by decide, rfl, by decide, by decide, by decide, by decide⟩,
    checkRateLimit_contract "k" 2 10 0 (fun _ => none) [5] (by decide) rfl
      (by decide) (by decide) 7 11 (by decide) (by decide)⟩

/-- C8: client-side password policy — `"short"` fails the strength check
and the signup branch of `handleSubmit` rejects it before the network
call; `"Str0ng!Passphrase"` passes the check and the signup branch
proceeds to the network call. -/
theorem password_policy_scenario :
    isPasswordStrong "short" = false ∧
    handleSignupSubmit "user@example.com" "short" "User" =
      .clientReject "Password does not meet security requirements" ∧
    isPasswordStrong "Str0ng!Passphrase" = true ∧
    handleSignupSubmit "user@example.com" "Str0ng!Passphrase" "User" =
      .networkSignup "user@example.com" "Str0ng!Passphrase" "User" := by
  exact ⟨by decide, by decide, by decide, by decide⟩

/-- C9: idempotent delete — for an authenticated caller, `DELETE
/journal/entry/:date` on a date with no stored entry at the derived key
returns the success response (status 200) and leaves the store exactly as
it was. -/
theorem delete_nonexistent_succeeds (auth : Option String)
    (getUser : String → Option User) (u : User) (date : String) (st : KVStore)
    (hv : verifyUser auth getUser = .ok u)
    (habs : kvGet (journalKey u.id date) st = none) :
    deleteJournalEntry auth getUser date st = (200, st) := by
  simp only [deleteJournalEntry, hv]
  rw [kvDel_of_get_none _ _ habs]

/-- Witness for C9: an authenticated delete of a nonexistent date on the
empty store returns success with the store unchanged. -/
theorem delete_nonexistent_succeeds_witness :
    (verifyUser (some "Bearer tok")
        (fun t => if t = "tok" then some ⟨"alice", "a@x"⟩ else none) =
        .ok ⟨"alice", "a@x"⟩ ∧
      kvGet (journalKey "alice" "2024-01-01") [] = none) ∧
    deleteJournalEntry (some "Bearer tok")
        (fun t => if t = "tok" then some ⟨"alice", "a@x"⟩ else none)
        "2024-01-01" [] = (200, []) :=
  ⟨⟨rfl, rfl⟩, delete_nonexistent_succeeds _ _ ⟨"alice", "a@x"⟩ _ _ rfl rfl⟩

/-- C1 counterexample: after `alice` saves an entry, the distinct
authenticated caller `bob` observes that entry through
`GET /admin/user/alice/entries` — the storage key of that route is derived
from the client-supplied path parameter, not from the authenticated
identity, and its admin-email restriction is commented out in the
source. -/
theorem cross_owner_read_via_admin_route :
    ("alice" : String) ≠ "bob" ∧
    (getAdminUserEntries (some "Bearer btok")
        (fun t => if t = "atok" then some ⟨"alice", "a@x"⟩
                  else if t = "btok" then some ⟨"bob", "b@x"⟩ else none)
        "alice"
        (postJournalSave (some "Bearer atok")
          (fun t => if t = "atok" then some ⟨"alice", "a@x"⟩
                    else if t = "btok" then some ⟨"bob", "b@x"⟩ else none)
          (some ⟨"2024-06-01", none, "dear diary", 2, 15⟩) []).2).2 =
      some [⟨"2024-06-01", none, "dear diary", 2, 15⟩] :=
  ⟨by decide, by decide⟩

/-- C1 amended: for colon-free owner ids, the four journal routes derive
every storage key from the authenticated identity, so an operation run on
behalf of authenticated caller `B` neither mutates an entry stored under
a distinct owner `A` (save/update/delete leave `A`'s keys untouched) nor
observes one (the listing of `B` is unchanged by the presence of an entry
under `A`'s key); the admin entries route, whose key is derived from the
client-supplied `userId` parameter with no admin restriction, does let
any authenticated caller read any owner's entries (see the
counterexample). -/
theorem owner_isolation_journal_routes (A B : String)
    (hA : ':' ∉ A.data) (hB : ':' ∉ B.data) (hAB : A ≠ B)
    (auth : Option String) (getUser : String → Option User) (u : User)
    (hv : verifyUser auth getUser = .ok u) (hu : u.id = B)
    (st : KVStore) (d : String) (body : Option JEntry)
    (date' : String) (t : Option String) (v : JEntry) :
    kvGet (journalKey A d) (postJournalSave auth getUser body st).2 =
      kvGet (journalKey A d) st ∧
    kvGet (journalKey A d) (putJournalEntry auth getUser date' t st).2.1 =
      kvGet (journalKey A d) st ∧
    kvGet (journalKey A d) (deleteJournalEntry auth getUser date' st).2 =
      kvGet (journalKey A d) st ∧
    getJournalEntries auth getUser (kvSet (journalKey A d) v st) =
      getJournalEntries auth getUser st := by
  subst hu
  refine ⟨?_, ?_, ?_, ?_⟩
  · cases body with
    | none => simp [postJournalSave, hv]
    | some e =>
        simp only [postJournalSave, hv]
        split
        · rfl
        · exact kvGet_kvSet_ne _ _ _ _
            (journalKey_ne_of_owner_ne A u.id d e.date hA hB hAB)
  · cases hex : kvGet (journalKey u.id date') st with
    | none => simp [putJournalEntry, hv, hex]
    | some ex =>
        simp only [putJournalEntry, hv, hex]
        exact kvGet_kvSet_ne _ _ _ _
          (journalKey_ne_of_owner_ne A u.id d date' hA hB hAB)
  · simp only [deleteJournalEntry, hv]
    exact kvGet_kvDel_ne _ _ _
      (journalKey_ne_of_owner_ne A u.id d date' hA hB hAB)
  · simp only [getJournalEntries, hv]
    rw [kvPrefixScan_kvSet_not_pref _ _ _ _ (scope_not_startsWith A u.id d hA hB hAB)]

/-- Witness for the amended C1: concrete owners `alice` and `bob`,
`bob` authenticated; `bob`'s save, update, and delete leave `alice`'s key
untouched, and an entry stored under `alice`'s key does not change
`bob`'s listing. -/
theorem owner_isolation_journal_routes_witness :
    ((':' ∉ ("alice" : String).data) ∧ (':' ∉ ("bob" : String).data) ∧
      ("alice" : String) ≠ "bob" ∧
      verifyUser (some "Bearer btok")
        (fun t => if t = "btok" then some ⟨"bob", "b@x"⟩ else none) =
        .ok ⟨"bob", "b@x"⟩) ∧
    (kvGet (journalKey "alice" "d1")
        (postJournalSave (some "Bearer btok")
          (fun t => if t = "btok" then some ⟨"bob", "b@x"⟩ else none)
          (some ⟨"d2", none, "hi", 1, 5⟩) []).2 =
        kvGet (journalKey "alice" "d1") [] ∧
      kvGet (journalKey "alice" "d1")
        (putJournalEntry (some "Bearer btok")
          (fun t => if t = "btok" then some ⟨"bob", "b@x"⟩ else none)
          "d2" (some "T") []).2.1 =
        kvGet (journalKey "alice" "d1") [] ∧
      kvGet (journalKey "alice" "d1")
        (deleteJournalEntry (some "Bearer btok")
          (fun t => if t = "btok" then some ⟨"bob", "b@x"⟩ else none)
          "d2" []).2 =
        kvGet (journalKey "alice" "d1") [] ∧
      getJournalEntries (some "Bearer btok")
        (fun t => if t = "btok" then some ⟨"bob", "b@x"⟩ else none)
        (kvSet (journalKey "alice" "d1") ⟨"d1", none, "secret", 1, 5⟩ []) =
        getJournalEntries (some "Bearer btok")
          (fun t => if t = "btok" then some ⟨"bob", "b@x"⟩ else none) []) :=
  ⟨⟨by decide, by decide, by decide, rfl⟩,
    owner_isolation_journal_routes "alice" "bob" (by decide) (by decide) (by decide)
      (some "Bearer btok") (fun t => if t = "btok" then some ⟨"bob", "b@x"⟩ else none)
      ⟨"bob", "b@x"⟩ rfl rfl [] "d1" (some ⟨"d2", none, "hi", 1, 5⟩) "d2" (some "T")
      ⟨"d1", none, "secret", 1, 5⟩⟩

/-- C2 counterexample: a store state reachable through the app's own save
path (sanitizing `<scr<script></script>ipt>alert(1)</script>` once stores
`<script>alert(1)</script>`) is returned verbatim by
`GET /admin/user/:userId/entries`: the emitted content differs from what
the sanitizer would produce on it, so that handler does not pass content
through the sanitizer before returning it. -/
theorem admin_route_emits_unsanitized :
    (getAdminUserEntries (some "Bearer btok")
        (fun t => if t = "atok" then some ⟨"alice", "a@x"⟩
                  else if t = "btok" then some ⟨"bob", "b@x"⟩ else none)
        "alice"
        (postJournalSave (some "Bearer atok")
          (fun t => if t = "atok" then some ⟨"alice", "a@x"⟩
                    else if t = "btok" then some ⟨"bob", "b@x"⟩ else none)
          (some ⟨"2024-06-01", none,
            "<scr<script></script>ipt>alert(1)</script>", 2, 15⟩) []).2).2 =
      some [⟨"2024-06-01", none, "<script>alert(1)</script>", 2, 15⟩] ∧
    sanitizeHtml "<script>alert(1)</script>" ≠ "<script>alert(1)</script>" :=
  ⟨by decide, by decide⟩

/-- C2 amended: content is passed through the sanitizer before persisting
on both write paths (save, and title-update which re-sanitizes), and
`GET /journal/entries` sanitizes every entry it returns; but
`GET /admin/user/:userId/entries` returns stored content verbatim,
without applying the sanitizer (see the counterexample). -/
theorem sanitization_write_and_owner_read (auth : Option String)
    (getUser : String → Option User) (u : User)
    (hv : verifyUser auth getUser = .ok u)
    (e : JEntry) (hd : e.date ≠ "") (hc : e.content ≠ "") (st : KVStore)
    (date' : String) (t : Option String) (ex : JEntry)
    (hex : kvGet (journalKey u.id date') st = some ex) (uid : String) :
    kvGet (journalKey u.id e.date) (postJournalSave auth getUser (some e) st).2 =
      some { e with content := sanitizeHtml e.content } ∧
    kvGet (journalKey u.id date')
        (putJournalEntry auth getUser date' t st).2.1 =
      some { ex with title := t, content := sanitizeHtml ex.content } ∧
    (getJournalEntries auth getUser st).2 =
      some ((kvPrefixScan (ownerScope u.id) st).map
        (fun e' => { e' with content := sanitizeHtml e'.content })) ∧
    (getAdminUserEntries auth getUser uid st).2 =
      some (kvPrefixScan (ownerScope uid) st) := by
  refine ⟨?_, ?_, ?_, ?_⟩
  · simp only [postJournalSave, hv]
    rw [if_neg (by simp [hd, hc])]
    exact kvGet_kvSet_self _ _ _
  · simp only [putJournalEntry, hv, hex]
    rw [kvGet_kvSet_self]
    by_cases hc2 : ex.content = ""
    · simp [hc2, sanitizeHtml_empty]
    · simp [hc2]
  · simp only [getJournalEntries, hv]
  · simp only [getAdminUserEntries, hv]

/-- Witness for the amended C2: concrete authenticated saves, updates and
listings over a one-entry store. -/
theorem sanitization_write_and_owner_read_witness :
    (verifyUser (some "Bearer btok")
        (fun t => if t = "btok" then some ⟨"bob", "b@x"⟩ else none) =
        .ok ⟨"bob", "b@x"⟩ ∧
      (⟨"d1", none, "hello", 1, 5⟩ : JEntry).date ≠ "" ∧
      (⟨"d1", none, "hello", 1, 5⟩ : JEntry).content ≠ "" ∧
      kvGet (journalKey "bob" "d0")
        [(journalKey "bob" "d0", ⟨"d0", some "T", "old", 1, 5⟩)] =
        some ⟨"d0", some "T", "old", 1, 5⟩) ∧
    (kvGet (journalKey "bob" "d1")
        (postJournalSave (some "Bearer btok")
          (fun t => if t = "btok" then some ⟨"bob", "b@x"⟩ else none)
          (some ⟨"d1", none, "hello", 1, 5⟩)
          [(journalKey "bob" "d0", ⟨"d0", some "T", "old", 1, 5⟩)]).2 =
        some ⟨"d1", none, sanitizeHtml "hello", 1, 5⟩ ∧
      kvGet (journalKey "bob" "d0")
        (putJournalEntry (some "Bearer btok")
          (fun t => if t = "btok" then some ⟨"bob", "b@x"⟩ else none)
          "d0" (some "U")
          [(journalKey "bob" "d0", ⟨"d0", some "T", "old", 1, 5⟩)]).2.1 =
        some ⟨"d0", some "U", sanitizeHtml "old", 1, 5⟩ ∧
      (getJournalEntries (some "Bearer btok")
          (fun t => if t = "btok" then some ⟨"bob", "b@x"⟩ else none)
          [(journalKey "bob" "d0", ⟨"d0", some "T", "old", 1, 5⟩)]).2 =
        some ((kvPrefixScan (ownerScope "bob")
            [(journalKey "bob" "d0", ⟨"d0", some "T", "old", 1, 5⟩)]).map
          (fun e' => { e' with content := sanitizeHtml e'.content })) ∧
      (getAdminUserEntries (some "Bearer btok")
          (fun t => if t = "btok" then some ⟨"bob", "b@x"⟩ else none)
          "carol"
          [(journalKey "bob" "d0", ⟨"d0", some "T", "old", 1, 5⟩)]).2 =
        some (kvPrefixScan (ownerScope "carol")
          [(journalKey "bob" "d0", ⟨"d0", some "T", "old", 1, 5⟩)])) :=
  ⟨⟨rfl, by decide, by decide, rfl⟩,
    sanitization_write_and_owner_read (some "Bearer btok")
      (fun t => if t = "btok" then some ⟨"bob", "b@x"⟩ else none)
      ⟨"bob", "b@x"⟩ rfl ⟨"d1", none, "hello", 1, 5⟩ (by decide) (by decide)
      [(journalKey "bob" "d0", ⟨"d0", some "T", "old", 1, 5⟩)]
      "d0" (some "U") ⟨"d0", some "T", "old", 1, 5⟩ rfl "carol"⟩

/-- C5 counterexample: the sanitizer is not idempotent — on
`<scr<script></script>ipt>alert(1)</script>` one application yields
`<script>alert(1)</script>` (removing the inner block splices a new
script element together), and a second application yields the empty
string. -/
theorem sanitizeHtml_not_idempotent :
    sanitizeHtml (sanitizeHtml "<scr<script></script>ipt>alert(1)</script>") ≠
      sanitizeHtml "<scr<script></script>ipt>alert(1)</script>" ∧
    sanitizeHtml "<scr<script></script>ipt>alert(1)</script>" =
      "<script>alert(1)</script>" ∧
    sanitizeHtml "<script>alert(1)</script>" = "" :=
  ⟨by decide, by decide, by decide⟩

/-- C5 amended: saving an entry and then listing entries for the same
owner returns that entry with content equal to
`sanitizeHtml (sanitizeHtml original)` — the sanitizer is applied once on
the write path and once on the read path — but `sanitizeHtml` is not
idempotent (see the counterexample), so this can differ from a single
application. -/
theorem save_then_list_double_sanitize (auth : Option String)
    (getUser : String → Option User) (u : User)
    (hv : verifyUser auth getUser = .ok u)
    (e : JEntry) (hd : e.date ≠ "") (hc : e.content ≠ "") (st : KVStore) :
    ((getJournalEntries auth getUser
        (postJournalSave auth getUser (some e) st).2).2.getD []).head?.map
      (fun e' => e'.content) = some (sanitizeHtml (sanitizeHtml e.content)) := by
  simp only [postJournalSave, hv]
  rw [if_neg (by simp [hd, hc])]
  simp only [getJournalEntries, hv]
  rw [kvPrefixScan_kvSet_pref _ _ _ _ (scope_startsWith_self u.id e.date)]
  simp

/-- Witness for the amended C5: for the non-fixed-point original of the
counterexample, the listed content is the double application of the
sanitizer. -/
theorem save_then_list_double_sanitize_witness :
    (verifyUser (some "Bearer atok")
        (fun t => if t = "atok" then some ⟨"alice", "a@x"⟩ else none) =
        .ok ⟨"alice", "a@x"⟩ ∧
      (⟨"d1", none, "<scr<script></script>ipt>alert(1)</script>", 2, 15⟩ : JEntry).date ≠ "" ∧
      (⟨"d1", none, "<scr<script></script>ipt>alert(1)</script>", 2, 15⟩ : JEntry).content ≠ "") ∧
    ((getJournalEntries (some "Bearer atok")
        (fun t => if t = "atok" then some ⟨"alice", "a@x"⟩ else none)
        (postJournalSave (some "Bearer atok")
          (fun t => if t = "atok" then some ⟨"alice", "a@x"⟩ else none)
          (some ⟨"d1", none, "<scr<script></script>ipt>alert(1)</script>", 2, 15⟩)
          []).2).2.getD []).head?.map (fun e' => e'.content) =
      some (sanitizeHtml (sanitizeHtml "<scr<script></script>ipt>alert(1)</script>")) :=
  ⟨⟨rfl, by decide, by decide⟩,
    save_then_list_double_sanitize (some "Bearer atok")
      (fun t => if t = "atok" then some ⟨"alice", "a@x"⟩ else none)
      ⟨"alice", "a@x"⟩ rfl ⟨"d1", none, "<scr<script></script>ipt>alert(1)</script>", 2, 15⟩
      (by decide) (by decide) []⟩

/-- C6 counterexample: a single-quoted `href` whose value begins with
`javascript:` survives sanitization unchanged — the URI passes only match
double-quoted values — so the claim does not hold "regardless of whether
the value is double- or single-quoted". -/
theorem jsuri_single_quoted_survives :
    sanitizeHtml ("<a href=" ++ squoteStr ++ "javascript:alert(1)" ++ squoteStr ++ ">x</a>") =
      ("<a href=" ++ squoteStr ++ "javascript:alert(1)" ++ squoteStr ++ ">x</a>") ∧
    listContainsSub ("javascript:".data)
      (sanitizeHtml ("<a href=" ++ squoteStr ++ "javascript:alert(1)" ++ squoteStr ++
        ">x</a>")).data = true :=
  ⟨by decide, by decide⟩

/-- C6 amended: the sanitizer removes `href`/`src` attributes whose
double-quoted value begins with `javascript:` (shown at representative
inputs, where no `javascript:` remains in the output), but leaves
single-quoted ones in place (see the counterexample). -/
theorem jsuri_double_quoted_removed :
    sanitizeHtml "<a href=\"javascript:alert(1)\">x</a>" = "<a >x</a>" ∧
    sanitizeHtml "<img src=\"javascript:alert(1)\">y" = "<img >y" ∧
    listContainsSub ("javascript:".data)
      (sanitizeHtml "<a href=\"javascript:alert(1)\">x</a>").data = false ∧
    listContainsSub ("javascript:".data)
      (sanitizeHtml "<img src=\"javascript:alert(1)\">y").data = false :=
  ⟨by decide, by decide, by decide, by decide⟩

/-- C10 counterexample: for a stored entry reachable through the save
path whose content is not a sanitizer fixed point, a title-less
`PUT /journal/entry/:date` returns success and erases the title as
claimed, but does not leave all other fields unchanged: the content field
is re-sanitized and changes from `<script>alert(1)</script>` to the empty
string. -/
theorem put_missing_title_changes_content :
    kvGet (journalKey "alice" "d1")
        (postJournalSave (some "Bearer atok")
          (fun t => if t = "atok" then some ⟨"alice", "a@x"⟩ else none)
          (some ⟨"d1", some "My title",
            "<scr<script></script>ipt>alert(1)</script>", 2, 15⟩) []).2 =
      some ⟨"d1", some "My title", "<script>alert(1)</script>", 2, 15⟩ ∧
    (putJournalEntry (some "Bearer atok")
        (fun t => if t = "atok" then some ⟨"alice", "a@x"⟩ else none)
        "d1" none
        (postJournalSave (some "Bearer atok")
          (fun t => if t = "atok" then some ⟨"alice", "a@x"⟩ else none)
          (some ⟨"d1", some "My title",
            "<scr<script></script>ipt>alert(1)</script>", 2, 15⟩) []).2).2.2 =
      some ⟨"d1", none, "", 2, 15⟩ ∧
    ("" : String) ≠ "<script>alert(1)</script>" :=
  ⟨by decide, by decide, by decide⟩

/-- C10 amended: a title-less `PUT /journal/entry/:date` on an existing
entry does not return 400; it returns success, overwrites the stored
title with the undefined value (erasing any previously stored title), and
leaves `date`, `wordCount` and `duration` unchanged — but the content
field is re-sanitized, so it is unchanged only when the stored content is
a fixed point of the sanitizer. -/
theorem put_missing_title_behavior (auth : Option String)
    (getUser : String → Option User) (u : User)
    (hv : verifyUser auth getUser = .ok u) (date : String) (st : KVStore)
    (ex : JEntry) (hex : kvGet (journalKey u.id date) st = some ex) :
    (putJournalEntry auth getUser date none st).1 = 200 ∧
    (putJournalEntry auth getUser date none st).1 ≠ 400 ∧
    (putJournalEntry auth getUser date none st).2.2 =
      some { ex with title := none, content := sanitizeHtml ex.content } ∧
    kvGet (journalKey u.id date) (putJournalEntry auth getUser date none st).2.1 =
      some { ex with title := none, content := sanitizeHtml ex.content } := by
  refine ⟨?_, ?_, ?_, ?_⟩
  · simp only [putJournalEntry, hv, hex]
  · simp only [putJournalEntry, hv, hex]
    decide
  · simp only [putJournalEntry, hv, hex]
    by_cases hc2 : ex.content = ""
    · simp [hc2, sanitizeHtml_empty]
    · simp [hc2]
  · simp only [putJournalEntry, hv, hex]
    rw [kvGet_kvSet_self]
    by_cases hc2 : ex.content = ""
    · simp [hc2, sanitizeHtml_empty]
    · simp [hc2]

/-- Witness for the amended C10: a concrete title-less update of a stored
titled entry. -/
theorem put_missing_title_behavior_witness :
    (verifyUser (some "Bearer atok")
        (fun t => if t = "atok" then some ⟨"alice", "a@x"⟩ else none) =
        .ok ⟨"alice", "a@x"⟩ ∧
      kvGet (journalKey "alice" "d1")
        [(journalKey "alice" "d1", ⟨"d1", some "T", "body", 1, 5⟩)] =
        some ⟨"d1", some "T", "body", 1, 5⟩) ∧
    ((putJournalEntry (some "Bearer atok")
        (fun t => if t = "atok" then some ⟨"alice", "a@x"⟩ else none)
        "d1" none
        [(journalKey "alice" "d1", ⟨"d1", some "T", "body", 1, 5⟩)]).1 = 200 ∧
      (putJournalEntry (some "Bearer atok")
        (fun t => if t = "atok" then some ⟨"alice", "a@x"⟩ else none)
        "d1" none
        [(journalKey "alice" "d1", ⟨"d1", some "T", "body", 1, 5⟩)]).1 ≠ 400 ∧
      (putJournalEntry (some "Bearer atok")
        (fun t => if t = "atok" then some ⟨"alice", "a@x"⟩ else none)
        "d1" none
        [(journalKey "alice" "d1", ⟨"d1", some "T", "body", 1, 5⟩)]).2.2 =
        some ⟨"d1", none, sanitizeHtml "body", 1, 5⟩ ∧
      kvGet (journalKey "alice" "d1")
        (putJournalEntry (some "Bearer atok")
          (fun t => if t = "atok" then some ⟨"alice", "a@x"⟩ else none)
          "d1" none
          [(journalKey "alice" "d1", ⟨"d1", some "T", "body", 1, 5⟩)]).2.1 =
        some ⟨"d1", none, sanitizeHtml "body", 1, 5⟩) :=
  ⟨⟨rfl, rfl⟩,
    put_missing_title_behavior (some "Bearer atok")
      (fun t => if t = "atok" then some ⟨"alice", "a@x"⟩ else none)
      ⟨"alice", "a@x"⟩ rfl "d1"
      [(journalKey "alice" "d1", ⟨"d1", some "T", "body", 1, 5⟩)]
      ⟨"d1", some "T", "body", 1, 5⟩ rfl⟩

end NightPage
